import Mathlib

/-!
Shallow embedding of the RetroPGF round-manager contract
(`contracts/rpgf/src/lib.rs`).

Modelling conventions:
* `u64` values are modelled by `Nat`. The Soroban build enables overflow
  checks, so an overflowing `u64` operation traps; the `Nat` model covers
  all non-trapping executions, on which arithmetic is exact.
* Soroban persistent/instance storage is modelled by explicit association
  lists inside a `State` record, one field per storage namespace
  (`ROUND`, `SUBMISSN`, `VOTR_ALC`, `FUND_ALC`, `ADMIN`, `VOTER`,
  `NEXT_RND`, `NEXT_SUB`). `Map<u64, u64>` arguments are association
  lists of pairs; iteration follows list order.
* `Address` is an abstract identifier, modelled by `Nat`.
* Each entry point is a function from a pre-state (plus the external
  inputs the host supplies: the ledger timestamp for `submit_project`,
  the token balance for `disburse_funds`) to a result and a post-state.
  The post-state retains partial effects committed before a failure,
  matching the per-step storage writes of the source.
* `.unwrap()` on a missing storage slot is modelled by the `Res.panic`
  outcome; `require_auth` is the host's opaque authorization check and
  is treated as succeeding (authorization is outside the model).
* Token transfers performed by `disburse_funds` are recorded as an
  explicit list of `(from, to, amount)` triples.
-/

namespace RPGF

/-- `Address` stand-in. -/
abbrev Addr := Nat

/-- The contract's closed error enumeration (`ContractError` in the source). -/
inductive ContractError where
  | Unauthorized
  | RoundNotFound
  | RoundNotActive
  | SubmissionNotFound
  | SubmissionDeadlinePassed
  | ExceededVoteLimit
  | AlreadyVoted
  | VotingClosed
  | FundsAlreadyDisbursed
  | InvalidAllocations
  | TransferFailed
  | InsufficientFunds
  | AdminNotSet
deriving DecidableEq

/-- Outcome of an entry point: normal return, contract error, or a Rust
panic (trap) from an unguarded `.unwrap()`. -/
inductive Res (α : Type) where
  | ok : α → Res α
  | err : ContractError → Res α
  | panic : Res α
deriving DecidableEq

/-- The `Round` record of the source. -/
structure Round where
  id : Nat
  funding_amount : Nat
  deadline : Nat
  is_active : Bool
  submissions : List Nat
  funds_disbursed : Bool
deriving DecidableEq

/-- The `Submission` record of the source. -/
structure Submission where
  id : Nat
  round_id : Nat
  submitter : Addr
  total_votes : Nat
deriving DecidableEq

/-- Association-list lookup: first entry with the given key. -/
def getA {κ α : Type} [DecidableEq κ] : List (κ × α) → κ → Option α
  | [], _ => none
  | (k, v) :: rest, key => if k = key then some v else getA rest key

/-- Association-list update: replace the first entry with the given key,
or append a new entry. -/
def setA {κ α : Type} [DecidableEq κ] : List (κ × α) → κ → α → List (κ × α)
  | [], key, v => [(key, v)]
  | (k, w) :: rest, key, v =>
    if k = key then (key, v) :: rest else (k, w) :: setA rest key v

/-- The contract's storage, one field per storage key namespace. -/
structure State where
  admin : Option Addr
  voter : Option Addr
  next_round_id : Nat
  next_submission_id : Nat
  rounds : List (Nat × Round)
  submissions : List (Nat × Submission)
  voter_allocations : List ((Nat × Addr) × List (Nat × Nat))
  fund_allocations : List (Nat × List (Nat × Nat))
deriving DecidableEq

/-- `VOTE_CREDITS`: the fixed per-voter credit budget. -/
def VOTE_CREDITS : Nat := 20

/-- `set_voter`: stores the single global voter slot. -/
def set_voter (s : State) (voter : Addr) : State :=
  { s with voter := some voter }

/-- `create_round`: admin-gated creation of a fresh active round. -/
def create_round (s : State) (funding_amount deadline : Nat) : Res Nat × State :=
  match s.admin with
  | none => (.err .Unauthorized, s)
  | some _ =>
    let round_id := s.next_round_id + 1
    let round : Round :=
      { id := round_id, funding_amount := funding_amount, deadline := deadline,
        is_active := true, submissions := [], funds_disbursed := false }
    (.ok round_id,
      { s with next_round_id := round_id, rounds := setA s.rounds round_id round })

/-- `submit_project`: creates a submission in an open, pre-deadline round.
`ts` is the ledger timestamp `env.ledger().timestamp()`. -/
def submit_project (s : State) (ts : Nat) (round_id : Nat) : Res Nat × State :=
  match getA s.rounds round_id with
  | none => (.err .RoundNotFound, s)
  | some round =>
    if round.is_active = false then (.err .RoundNotActive, s)
    else if round.deadline < ts then (.err .SubmissionDeadlinePassed, s)
    else
      let submission_id := s.next_submission_id + 1
      let s1 := { s with next_submission_id := submission_id }
      match s1.voter with
      | none => (.panic, s1)
      | some v =>
        let submission : Submission :=
          { id := submission_id, round_id := round_id, submitter := v, total_votes := 0 }
        let s2 := { s1 with submissions := setA s1.submissions submission_id submission }
        let round2 := { round with submissions := round.submissions ++ [submission_id] }
        (.ok submission_id, { s2 with rounds := setA s2.rounds round_id round2 })

/-- Sum of the vote values of an allocation map (the source's
`total_votes_allocated` accumulation loop). -/
def voteSum (allocations : List (Nat × Nat)) : Nat :=
  (allocations.map fun p => p.2).sum

/-- The per-pair loop of `allocate_votes`: add each pair's votes to its
submission's running total, failing on the first missing submission. -/
def applyVotes (s : State) : List (Nat × Nat) → Res Unit × State
  | [] => (.ok (), s)
  | (submission_id, votes) :: rest =>
    match getA s.submissions submission_id with
    | none => (.err .SubmissionNotFound, s)
    | some sub =>
      let sub2 := { sub with total_votes := sub.total_votes + votes }
      applyVotes { s with submissions := setA s.submissions submission_id sub2 } rest

/-- `allocate_votes`: voter lookup (unguarded unwrap), credit-limit check,
persist the allocation vector, then the per-pair update loop. -/
def allocate_votes (s : State) (round_id : Nat)
    (allocations : List (Nat × Nat)) : Res Unit × State :=
  match s.voter with
  | none => (.panic, s)
  | some voter =>
    if VOTE_CREDITS < voteSum allocations then (.err .ExceededVoteLimit, s)
    else
      let s1 := { s with voter_allocations := setA s.voter_allocations (round_id, voter) allocations }
      applyVotes s1 allocations

/-- The first loop of `close_voting`: total votes over the round's
submissions, `none` when some submission is missing. -/
def totalVotesOf (subs : List (Nat × Submission)) : List Nat → Option Nat
  | [] => some 0
  | sid :: rest =>
    match getA subs sid, totalVotesOf subs rest with
    | some sub, some t => some (sub.total_votes + t)
    | _, _ => none

/-- One submission's funding share (the body of the second `close_voting`
loop): truncating division, 0 when the total is 0. -/
def allocAmount (votes funding total : Nat) : Nat :=
  if 0 < total then votes * funding / total else 0

/-- The second loop of `close_voting`: build the allocations map. -/
def allocLoop (subs : List (Nat × Submission)) (funding total : Nat)
    (acc : List (Nat × Nat)) : List Nat → Option (List (Nat × Nat))
  | [] => some acc
  | sid :: rest =>
    match getA subs sid with
    | none => none
    | some sub =>
      allocLoop subs funding total
        (setA acc sid (allocAmount sub.total_votes funding total)) rest

/-- `close_voting`: admin-gated; closes an active round, then computes and
persists the funding allocations. -/
def close_voting (s : State) (round_id : Nat) : Res Unit × State :=
  match s.admin with
  | none => (.err .Unauthorized, s)
  | some _ =>
    match getA s.rounds round_id with
    | none => (.err .RoundNotFound, s)
    | some round =>
      if round.is_active = false then (.err .RoundNotActive, s)
      else
        let round2 := { round with is_active := false }
        let s1 := { s with rounds := setA s.rounds round_id round2 }
        match totalVotesOf s1.submissions round2.submissions with
        | none => (.err .SubmissionNotFound, s1)
        | some total_votes =>
          match allocLoop s1.submissions round2.funding_amount total_votes
              [] round2.submissions with
          | none => (.err .SubmissionNotFound, s1)
          | some allocations =>
            (.ok (), { s1 with fund_allocations := setA s1.fund_allocations round_id allocations })

/-- One recorded token transfer: (from, to, amount). -/
abbrev Transfer := Addr × Addr × Nat

/-- The transfer loop of `disburse_funds`: one transfer per stored
allocation entry; transfers already made stay made when a later
submission lookup fails. -/
def transferLoop (s : State) (admin : Addr) (acc : List Transfer) :
    List (Nat × Nat) → Res Unit × List Transfer
  | [] => (.ok (), acc)
  | (submission_id, amount) :: rest =>
    match getA s.submissions submission_id with
    | none => (.err .SubmissionNotFound, acc)
    | some sub =>
      transferLoop s admin (acc ++ [(admin, sub.submitter, amount)]) rest

/-- `disburse_funds`: admin-gated; guarded by the `funds_disbursed` flag;
needs stored allocations and a sufficient balance; transfers each
allocation to its submitter, then marks the round disbursed.
`contract_balance` is the token balance the host reports. -/
def disburse_funds (s : State) (round_id : Nat) (contract_balance : Int) :
    Res Unit × State × List Transfer :=
  match s.admin with
  | none => (.err .Unauthorized, s, [])
  | some admin =>
    match getA s.rounds round_id with
    | none => (.err .RoundNotFound, s, [])
    | some round =>
      if round.funds_disbursed then (.err .FundsAlreadyDisbursed, s, [])
      else
        match getA s.fund_allocations round_id with
        | none => (.err .VotingClosed, s, [])
        | some allocations =>
          if contract_balance < (round.funding_amount : Int) then
            (.err .InsufficientFunds, s, [])
          else
            match transferLoop s admin [] allocations with
            | (.ok _, trs) =>
              let round2 := { round with funds_disbursed := true }
              (.ok (), { s with rounds := setA s.rounds round_id round2 }, trs)
            | (r, trs) => (r, s, trs)

/-- Vote total of a submission in a store, 0 when absent. -/
def submissionVotes (subs : List (Nat × Submission)) (sid : Nat) : Nat :=
  match getA subs sid with
  | some sub => sub.total_votes
  | none => 0

/-- Votes an allocation map assigns to one submission id (sum over all
pairs with that key). -/
def votesFor (allocations : List (Nat × Nat)) (sid : Nat) : Nat :=
  (allocations.map fun p => if p.1 = sid then p.2 else 0).sum

/-- Sum of the values of a `(key, value)` list. -/
def sumValues (l : List (Nat × Nat)) : Nat :=
  (l.map fun p => p.2).sum

/-- Total amount moved by a list of transfers. -/
def transfersSum (trs : List Transfer) : Nat :=
  (trs.map fun tr => tr.2.2).sum

theorem getA_setA_self {κ α : Type} [DecidableEq κ] (l : List (κ × α)) (k : κ) (v : α) :
    getA (setA l k v) k = some v := by
  induction l with
  | nil => simp [getA, setA]
  | cons p rest ih =>
    obtain ⟨k1, v1⟩ := p
    by_cases h : k1 = k
    · subst h; simp [getA, setA]
    · simp [getA, setA, h, ih]

theorem getA_setA_ne {κ α : Type} [DecidableEq κ] (l : List (κ × α)) (k k2 : κ) (v : α)
    (h : k ≠ k2) : getA (setA l k v) k2 = getA l k2 := by
  induction l with
  | nil => simp [getA, setA, h]
  | cons p rest ih =>
    obtain ⟨k1, v1⟩ := p
    by_cases h1 : k1 = k
    · subst h1; simp [getA, setA, h]
    · simp [getA, setA, h1, ih]

theorem isSome_getA_setA {κ α : Type} [DecidableEq κ] (l : List (κ × α)) (k k2 : κ) (v : α)
    (h : (getA l k2).isSome = true) : (getA (setA l k v) k2).isSome = true := by
  by_cases hk : k = k2
  · subst hk; simp [getA_setA_self]
  · rw [getA_setA_ne l k k2 v hk]; exact h

theorem setA_append {κ α : Type} [DecidableEq κ] (l : List (κ × α)) (k : κ) (v : α)
    (h : ∀ p ∈ l, p.1 ≠ k) : setA l k v = l ++ [(k, v)] := by
  induction l with
  | nil => simp [setA]
  | cons p rest ih =>
    obtain ⟨k1, v1⟩ := p
    have h1 : k1 ≠ k := h (k1, v1) (List.mem_cons_self _ _)
    simp only [setA, if_neg h1, List.cons_append, List.cons.injEq, true_and]
    exact ih fun q hq => h q (List.mem_cons_of_mem _ hq)

theorem applyVotes_proj (l : List (Nat × Nat)) (s : State) :
    (applyVotes s l).2.admin = s.admin ∧ (applyVotes s l).2.voter = s.voter ∧
    (applyVotes s l).2.rounds = s.rounds ∧
    (applyVotes s l).2.voter_allocations = s.voter_allocations ∧
    (applyVotes s l).2.fund_allocations = s.fund_allocations := by
  induction l generalizing s with
  | nil => simp [applyVotes]
  | cons p rest ih =>
    obtain ⟨k, w⟩ := p
    cases hg : getA s.submissions k with
    | none => simp [applyVotes, hg]
    | some sub => simpa [applyVotes, hg] using ih _

theorem applyVotes_res (l : List (Nat × Nat)) (s : State) :
    (applyVotes s l).1 = .ok () ∨ (applyVotes s l).1 = .err .SubmissionNotFound := by
  induction l generalizing s with
  | nil => simp [applyVotes]
  | cons p rest ih =>
    obtain ⟨k, w⟩ := p
    cases hg : getA s.submissions k with
    | none => simp [applyVotes, hg]
    | some sub => simpa [applyVotes, hg] using ih _

theorem applyVotes_getA_ok (l : List (Nat × Nat)) (s : State) (sid : Nat) (sub : Submission)
    (hsub : getA s.submissions sid = some sub)
    (hok : (applyVotes s l).1 = .ok ()) :
    getA (applyVotes s l).2.submissions sid =
      some { sub with total_votes := sub.total_votes + votesFor l sid } := by
  induction l generalizing s sub with
  | nil => simpa [applyVotes, votesFor] using hsub
  | cons p rest ih =>
    obtain ⟨k, w⟩ := p
    cases hg : getA s.submissions k with
    | none => simp [applyVotes, hg] at hok
    | some subk =>
      simp only [applyVotes, hg] at hok ⊢
      by_cases hk : k = sid
      · subst hk
        rw [hsub] at hg
        injection hg with hg
        subst hg
        have hnext : getA (setA s.submissions k { sub with total_votes := sub.total_votes + w }) k =
            some { sub with total_votes := sub.total_votes + w } := getA_setA_self _ _ _
        have := ih _ _ hnext hok
        rw [this]
        simp [votesFor, Nat.add_assoc]
      · have hnext : getA (setA s.submissions k { subk with total_votes := subk.total_votes + w }) sid =
            some sub := by
          rw [getA_setA_ne _ _ _ _ hk]; exact hsub
        have := ih _ _ hnext hok
        rw [this]
        simp [votesFor, hk]

theorem applyVotes_ok_of_present (l : List (Nat × Nat)) (s : State)
    (hall : ∀ p ∈ l, (getA s.submissions p.1).isSome = true) :
    (applyVotes s l).1 = .ok () := by
  induction l generalizing s with
  | nil => simp [applyVotes]
  | cons p rest ih =>
    obtain ⟨k, w⟩ := p
    cases hg : getA s.submissions k with
    | none =>
      have := hall (k, w) (List.mem_cons_self _ _)
      simp [hg] at this
    | some sub =>
      simp only [applyVotes, hg]
      exact ih _ fun q hq =>
        isSome_getA_setA _ _ _ _ (hall q (List.mem_cons_of_mem _ hq))

theorem totalVotesOf_isSome (subs : List (Nat × Submission)) (l : List Nat) (t : Nat)
    (h : totalVotesOf subs l = some t) : ∀ sid ∈ l, (getA subs sid).isSome = true := by
  induction l generalizing t with
  | nil => simp
  | cons sid rest ih =>
    intro k hk
    cases hg : getA subs sid with
    | none => simp [totalVotesOf, hg] at h
    | some sub =>
      cases hrest : totalVotesOf subs rest with
      | none => simp [totalVotesOf, hg, hrest] at h
      | some t2 =>
        rcases List.mem_cons.mp hk with hk | hk
        · subst hk; simp [hg]
        · exact ih t2 hrest k hk

theorem totalVotesOf_eq_sum (subs : List (Nat × Submission)) (l : List Nat) (t : Nat)
    (h : totalVotesOf subs l = some t) :
    t = (l.map (submissionVotes subs)).sum := by
  induction l generalizing t with
  | nil => simp [totalVotesOf] at h; simp [h]
  | cons sid rest ih =>
    cases hg : getA subs sid with
    | none => simp [totalVotesOf, hg] at h
    | some sub =>
      cases hrest : totalVotesOf subs rest with
      | none => simp [totalVotesOf, hg, hrest] at h
      | some t2 =>
        simp only [totalVotesOf, hg, hrest] at h
        injection h with h
        subst h
        simp [List.map_cons, List.sum_cons, submissionVotes, hg, ih t2 hrest]

theorem allocLoop_some (subs : List (Nat × Submission)) (funding total : Nat)
    (l : List Nat) (acc : List (Nat × Nat))
    (hall : ∀ sid ∈ l, (getA subs sid).isSome = true) :
    ∃ m, allocLoop subs funding total acc l = some m := by
  induction l generalizing acc with
  | nil => exact ⟨acc, rfl⟩
  | cons sid rest ih =>
    cases hg : getA subs sid with
    | none =>
      have := hall sid (List.mem_cons_self _ _)
      simp [hg] at this
    | some sub =>
      simp only [allocLoop, hg]
      exact ih _ fun k hk => hall k (List.mem_cons_of_mem _ hk)

theorem allocLoop_getA_not_mem (subs : List (Nat × Submission)) (funding total : Nat)
    (l : List Nat) (acc m : List (Nat × Nat)) (k : Nat)
    (h : allocLoop subs funding total acc l = some m) (hk : k ∉ l) :
    getA m k = getA acc k := by
  induction l generalizing acc with
  | nil => simp only [allocLoop] at h; injection h with h; subst h; rfl
  | cons sid rest ih =>
    cases hg : getA subs sid with
    | none => simp [allocLoop, hg] at h
    | some sub =>
      simp only [allocLoop, hg] at h
      have hne : sid ≠ k := fun he => hk (he ▸ List.mem_cons_self _ _)
      rw [ih _ h (fun he => hk (List.mem_cons_of_mem _ he))]
      exact getA_setA_ne _ _ _ _ hne

theorem allocLoop_getA_mem (subs : List (Nat × Submission)) (funding total : Nat)
    (l : List Nat) (acc m : List (Nat × Nat)) (k : Nat) (sub : Submission)
    (h : allocLoop subs funding total acc l = some m) (hk : k ∈ l)
    (hsub : getA subs k = some sub) :
    getA m k = some (allocAmount sub.total_votes funding total) := by
  induction l generalizing acc with
  | nil => simp at hk
  | cons sid rest ih =>
    cases hg : getA subs sid with
    | none => simp [allocLoop, hg] at h
    | some sub1 =>
      simp only [allocLoop, hg] at h
      by_cases hmem : k ∈ rest
      · exact ih _ h hmem
      · have hks : k = sid := by
          rcases List.mem_cons.mp hk with he | he
          · exact he
          · exact absurd he hmem
        subst hks
        rw [hsub] at hg
        injection hg with hg
        subst hg
        rw [allocLoop_getA_not_mem _ _ _ _ _ _ _ h hmem]
        exact getA_setA_self _ _ _

theorem allocLoop_eq_append (subs : List (Nat × Submission)) (funding total : Nat)
    (l : List Nat) (acc m : List (Nat × Nat))
    (hnd : l.Nodup) (hdisj : ∀ k ∈ l, ∀ p ∈ acc, p.1 ≠ k)
    (h : allocLoop subs funding total acc l = some m) :
    m = acc ++ l.map fun sid =>
      (sid, allocAmount (submissionVotes subs sid) funding total) := by
  induction l generalizing acc with
  | nil => simp only [allocLoop] at h; injection h with h; subst h; simp
  | cons sid rest ih =>
    cases hg : getA subs sid with
    | none => simp [allocLoop, hg] at h
    | some sub =>
      simp only [allocLoop, hg] at h
      have hset : setA acc sid (allocAmount sub.total_votes funding total) =
          acc ++ [(sid, allocAmount sub.total_votes funding total)] :=
        setA_append _ _ _ fun p hp => hdisj sid (List.mem_cons_self _ _) p hp
      rw [hset] at h
      have hnd2 : rest.Nodup := (List.nodup_cons.mp hnd).2
      have hsid : sid ∉ rest := (List.nodup_cons.mp hnd).1
      have hdisj2 : ∀ k ∈ rest,
          ∀ p ∈ acc ++ [(sid, allocAmount sub.total_votes funding total)], p.1 ≠ k := by
        intro k hk p hp
        rcases List.mem_append.mp hp with hp | hp
        · exact hdisj k (List.mem_cons_of_mem _ hk) p hp
        · simp only [List.mem_singleton] at hp
          subst hp
          show sid ≠ k
          intro he
          subst he
          exact hsid hk
      have := ih _ hnd2 hdisj2 h
      rw [this]
      simp [submissionVotes, hg, List.append_assoc]

theorem div_add_div_le (a b t : Nat) : a / t + b / t ≤ (a + b) / t := by
  rcases Nat.eq_zero_or_pos t with ht | ht
  · subst ht; simp
  · rw [Nat.le_div_iff_mul_le ht, Nat.add_mul]
    exact Nat.add_le_add (Nat.div_mul_le_self a t) (Nat.div_mul_le_self b t)

theorem sum_map_div_le (xs : List Nat) (t : Nat) :
    (xs.map fun x => x / t).sum ≤ xs.sum / t := by
  induction xs with
  | nil => simp
  | cons x rest ih =>
    simp only [List.map_cons, List.sum_cons]
    calc x / t + (rest.map fun x => x / t).sum ≤ x / t + rest.sum / t :=
          Nat.add_le_add_left ih _
      _ ≤ (x + rest.sum) / t := div_add_div_le _ _ _

theorem sum_div_add_sum_mod (xs : List Nat) (t : Nat) :
    t * (xs.map fun x => x / t).sum + (xs.map fun x => x % t).sum = xs.sum := by
  induction xs with
  | nil => simp
  | cons x rest ih =>
    simp only [List.map_cons, List.sum_cons, Nat.mul_add]
    have hx := Nat.div_add_mod x t
    omega

theorem sum_map_mul_right (xs : List Nat) (f : Nat) :
    (xs.map fun x => x * f).sum = xs.sum * f := by
  induction xs with
  | nil => simp
  | cons x rest ih => simp [List.map_cons, List.sum_cons, ih, Nat.add_mul]

theorem allocSum_le (vs : List Nat) (f t : Nat) (ht : vs.sum = t) :
    (vs.map fun v => allocAmount v f t).sum ≤ f := by
  rcases Nat.eq_zero_or_pos t with h0 | h0
  · subst h0
    simp [allocAmount]
  · have he : (vs.map fun v => allocAmount v f t) = ((vs.map fun v => v * f).map fun x => x / t) := by
      simp only [List.map_map]
      apply List.map_congr_left
      intro v _
      simp [allocAmount, h0, Function.comp]
    rw [he]
    calc ((vs.map fun v => v * f).map fun x => x / t).sum
        ≤ (vs.map fun v => v * f).sum / t := sum_map_div_le _ _
      _ = vs.sum * f / t := by rw [sum_map_mul_right]
      _ = t * f / t := by rw [ht]
      _ = f := Nat.mul_div_cancel_left f h0

theorem allocSum_eq_iff (vs : List Nat) (f t : Nat) (ht : vs.sum = t) (h0 : 0 < t) :
    (vs.map fun v => allocAmount v f t).sum = f ↔ ∀ v ∈ vs, t ∣ v * f := by
  have he : (vs.map fun v => allocAmount v f t) = ((vs.map fun v => v * f).map fun x => x / t) := by
    simp only [List.map_map]
    apply List.map_congr_left
    intro v _
    simp [allocAmount, h0, Function.comp]
  have hkey := sum_div_add_sum_mod (vs.map fun v => v * f) t
  rw [sum_map_mul_right, ht] at hkey
  rw [he]
  constructor
  · intro hsum v hv
    rw [hsum] at hkey
    have hz : ((vs.map fun v => v * f).map fun x => x % t).sum = 0 := by omega
    have hall := List.sum_eq_zero_iff.mp hz
    apply Nat.dvd_of_mod_eq_zero
    apply hall
    exact List.mem_map_of_mem _ (List.mem_map_of_mem _ hv)
  · intro hdvd
    have hz : ((vs.map fun v => v * f).map fun x => x % t).sum = 0 := by
      apply List.sum_eq_zero
      intro x hx
      rcases List.mem_map.mp hx with ⟨y, hy, hyx⟩
      rcases List.mem_map.mp hy with ⟨v, hv, hvy⟩
      subst hyx hvy
      exact Nat.mod_eq_zero_of_dvd (hdvd v hv)
    rw [hz] at hkey
    have := Nat.eq_of_mul_eq_mul_left h0 (by omega :
      t * ((vs.map fun v => v * f).map fun x => x / t).sum = t * f)
    exact this

theorem transferLoop_sum (l : List (Nat × Nat)) (s : State) (adm : Addr)
    (acc trs : List Transfer) (h : transferLoop s adm acc l = (.ok (), trs)) :
    transfersSum trs = transfersSum acc + sumValues l := by
  induction l generalizing acc with
  | nil =>
    simp only [transferLoop] at h
    injection h with h1 h2
    subst h2
    simp [sumValues]
  | cons p rest ih =>
    obtain ⟨sid, amount⟩ := p
    cases hg : getA s.submissions sid with
    | none => simp [transferLoop, hg] at h
    | some sub =>
      simp only [transferLoop, hg] at h
      have := ih _ h
      rw [this]
      simp [transfersSum, sumValues, List.map_append]
      omega

/-- Spec §8 example round: funding 1000, deadline 100, two submissions
with 30 and 70 votes. -/
def exRound : Round :=
  { id := 1, funding_amount := 1000, deadline := 100, is_active := true,
    submissions := [1, 2], funds_disbursed := false }

/-- First example submission, 30 votes. -/
def exSub1 : Submission := { id := 1, round_id := 1, submitter := 1, total_votes := 30 }

/-- Second example submission, 70 votes. -/
def exSub2 : Submission := { id := 2, round_id := 1, submitter := 1, total_votes := 70 }

/-- Concrete state holding the spec §8 example round. -/
def exampleState : State :=
  { admin := some 0, voter := some 1, next_round_id := 1, next_submission_id := 2,
    rounds := [(1, exRound)], submissions := [(1, exSub1), (2, exSub2)],
    voter_allocations := [], fund_allocations := [] }

/-- A round already marked disbursed. -/
def disbRound : Round :=
  { id := 1, funding_amount := 1000, deadline := 100, is_active := false,
    submissions := [1, 2], funds_disbursed := true }

/-- State whose only round has already been disbursed. -/
def disbursedState : State :=
  { admin := some 0, voter := some 1, next_round_id := 1, next_submission_id := 2,
    rounds := [(1, disbRound)], submissions := [(1, exSub1), (2, exSub2)],
    voter_allocations := [], fund_allocations := [(1, [(1, 300), (2, 700)])] }

/-- State with a registered voter but no rounds and no submissions. -/
def cexState : State :=
  { admin := some 0, voter := some 1, next_round_id := 0, next_submission_id := 0,
    rounds := [], submissions := [], voter_allocations := [], fund_allocations := [] }

/-- An open round used by the no-voter state. -/
def nvRound : Round :=
  { id := 1, funding_amount := 500, deadline := 100, is_active := true,
    submissions := [], funds_disbursed := false }

/-- State where `set_voter` was never called. -/
def noVoterState : State :=
  { admin := some 0, voter := none, next_round_id := 1, next_submission_id := 0,
    rounds := [(1, nvRound)], submissions := [], voter_allocations := [],
    fund_allocations := [] }

/-- State with a submission but no round record at all. -/
def noRoundState : State :=
  { admin := some 0, voter := some 1, next_round_id := 0, next_submission_id := 1,
    rounds := [], submissions := [(1, { id := 1, round_id := 1, submitter := 1, total_votes := 0 })],
    voter_allocations := [], fund_allocations := [] }

theorem applyVotes_ne_limit (l : List (Nat × Nat)) (s : State) :
    (applyVotes s l).1 ≠ .err .ExceededVoteLimit := by
  rcases applyVotes_res l s with h | h <;> rw [h] <;> simp

/-- Claim C3: with a registered voter, `allocate_votes` fails with
`ExceededVoteLimit` and leaves the state completely unchanged whenever
the vote values sum to more than `VOTE_CREDITS` (20); when the sum is at
most 20 (including 0) the call is never rejected for the credit limit. -/
theorem claim_c3_vote_credit_limit (s : State) (round_id : Nat)
    (allocations : List (Nat × Nat)) (v : Addr) (hv : s.voter = some v) :
    (VOTE_CREDITS < voteSum allocations →
      allocate_votes s round_id allocations = (.err .ExceededVoteLimit, s)) ∧
    (voteSum allocations ≤ VOTE_CREDITS →
      (allocate_votes s round_id allocations).1 ≠ .err .ExceededVoteLimit) := by
  constructor
  · intro h
    simp [allocate_votes, hv, h]
  · intro h
    have hnlt : ¬ VOTE_CREDITS < voteSum allocations := Nat.not_lt.mpr h
    simp only [allocate_votes, hv, if_neg hnlt]
    exact applyVotes_ne_limit allocations _

/-- Witness for C3 at the example state: a 21-vote allocation is rejected
with no state change, a 20-vote allocation is not rejected for credits. -/
theorem claim_c3_witness :
    allocate_votes exampleState 1 [(1, 21)] = (.err .ExceededVoteLimit, exampleState) ∧
    (allocate_votes exampleState 1 [(1, 20)]).1 ≠ .err .ExceededVoteLimit :=
  ⟨(claim_c3_vote_credit_limit exampleState 1 [(1, 21)] 1 rfl).1 (by decide),
   (claim_c3_vote_credit_limit exampleState 1 [(1, 20)] 1 rfl).2 (by decide)⟩

/-- Claim C4: on a round whose `funds_disbursed` flag is already set,
`disburse_funds` always fails with `FundsAlreadyDisbursed`, performs zero
transfers, and leaves the state unchanged. -/
theorem claim_c4_disburse_idempotence_guard (s : State) (round_id : Nat)
    (contract_balance : Int) (a : Addr) (round : Round)
    (ha : s.admin = some a) (hr : getA s.rounds round_id = some round)
    (hd : round.funds_disbursed = true) :
    disburse_funds s round_id contract_balance = (.err .FundsAlreadyDisbursed, s, []) := by
  simp [disburse_funds, ha, hr, hd]

/-- Witness for C4: a second disbursement on the disbursed example round
fails with zero transfers and no state change. -/
theorem claim_c4_witness :
    disburse_funds disbursedState 1 2000 = (.err .FundsAlreadyDisbursed, disbursedState, []) :=
  claim_c4_disburse_idempotence_guard disbursedState 1 2000 0 disbRound rfl rfl rfl

/-- Counterexample to claim C5 as stated: in a concrete state with a
registered voter and no submissions, `allocate_votes` fails with
`SubmissionNotFound`, yet the allocation vector for `(round_id, voter)`
HAS been persisted by that call — the source persists the vector before
running the per-pair additions, not after. -/
theorem claim_c5_counterexample :
    (allocate_votes cexState 7 [(5, 3)]).1 = .err .SubmissionNotFound ∧
    getA (allocate_votes cexState 7 [(5, 3)]).2.voter_allocations (7, 1) = some [(5, 3)] := by
  decide

/-- Claim C5 (amended): the allocation vector is persisted before the
per-pair vote additions; hence whenever `allocate_votes` fails with
`SubmissionNotFound` on some pair, the allocation vector for
`(round_id, voter)` has already been persisted by that call. -/
theorem claim_c5_persist_before_loop (s : State) (round_id : Nat)
    (allocations : List (Nat × Nat)) (v : Addr) (hv : s.voter = some v)
    (herr : (allocate_votes s round_id allocations).1 = .err .SubmissionNotFound) :
    getA (allocate_votes s round_id allocations).2.voter_allocations (round_id, v) =
      some allocations := by
  simp only [allocate_votes, hv] at herr ⊢
  by_cases hlim : VOTE_CREDITS < voteSum allocations
  · rw [if_pos hlim] at herr
    simp at herr
  · rw [if_neg hlim] at herr ⊢
    rw [(applyVotes_proj allocations _).2.2.2.1]
    exact getA_setA_self _ _ _

/-- Witness for the amended C5 at the concrete failing input. -/
theorem claim_c5_witness :
    getA (allocate_votes cexState 7 [(5, 3)]).2.voter_allocations (7, 1) = some [(5, 3)] :=
  claim_c5_persist_before_loop cexState 7 [(5, 3)] 1 rfl (by decide)

/-- Claim C6: for an existing, active round (with a registered voter),
`submit_project` fails with `SubmissionDeadlinePassed` exactly when the
ledger timestamp is strictly greater than the deadline, and succeeds at
any timestamp up to and including the deadline. -/
theorem claim_c6_deadline_boundary (s : State) (ts round_id : Nat) (round : Round) (v : Addr)
    (hr : getA s.rounds round_id = some round) (hact : round.is_active = true)
    (hv : s.voter = some v) :
    ((submit_project s ts round_id).1 = .err .SubmissionDeadlinePassed ↔ round.deadline < ts) ∧
    (ts ≤ round.deadline →
      ∃ s2, submit_project s ts round_id = (.ok (s.next_submission_id + 1), s2)) := by
  have hok : ∀ _ : ¬ round.deadline < ts,
      (submit_project s ts round_id).1 = .ok (s.next_submission_id + 1) := by
    intro hnlt
    simp [submit_project, hr, hact, hnlt, hv]
  constructor
  · constructor
    · intro h
      by_contra hts
      rw [hok hts] at h
      simp at h
    · intro hts
      simp [submit_project, hr, hact, hts]
  · intro hts
    have h1 := hok (Nat.not_lt.mpr hts)
    exact ⟨(submit_project s ts round_id).2, by rw [← h1]⟩

/-- Witness for C6 at the example state (deadline 100): timestamp 101
fails `SubmissionDeadlinePassed`, timestamp 100 succeeds. -/
theorem claim_c6_witness :
    (submit_project exampleState 101 1).1 = .err .SubmissionDeadlinePassed ∧
    ∃ s2, submit_project exampleState 100 1 = (.ok 3, s2) :=
  ⟨(claim_c6_deadline_boundary exampleState 101 1 exRound 1 rfl rfl rfl).1.mpr (by decide),
   (claim_c6_deadline_boundary exampleState 100 1 exRound 1 rfl rfl rfl).2 (by decide)⟩

/-- Claim C10: if no voter was ever set, `allocate_votes` hits the
unguarded unwrap and panics with no state change, and `submit_project`
(on an existing, active, pre-deadline round) also panics instead of
returning an error; with a voter set, that branch is unreachable and the
new submission records the voter-slot identity as its submitter. -/
theorem claim_c10_voter_unwrap_panic (s : State) (ts round_id : Nat) (round : Round)
    (allocations : List (Nat × Nat))
    (hr : getA s.rounds round_id = some round) (hact : round.is_active = true)
    (hts : ts ≤ round.deadline) :
    (s.voter = none →
      allocate_votes s round_id allocations = (.panic, s) ∧
      (submit_project s ts round_id).1 = .panic) ∧
    (∀ v, s.voter = some v →
      ∃ s2, submit_project s ts round_id = (.ok (s.next_submission_id + 1), s2) ∧
        getA s2.submissions (s.next_submission_id + 1) =
          some { id := s.next_submission_id + 1, round_id := round_id,
                 submitter := v, total_votes := 0 }) := by
  have hnlt : ¬ round.deadline < ts := Nat.not_lt.mpr hts
  constructor
  · intro hv
    constructor
    · simp [allocate_votes, hv]
    · simp [submit_project, hr, hact, hnlt, hv]
  · intro v hv
    have h1 : (submit_project s ts round_id).1 = .ok (s.next_submission_id + 1) := by
      simp [submit_project, hr, hact, hnlt, hv]
    have h2 : (submit_project s ts round_id).2.submissions =
        setA s.submissions (s.next_submission_id + 1)
          { id := s.next_submission_id + 1, round_id := round_id,
            submitter := v, total_votes := 0 } := by
      simp [submit_project, hr, hact, hnlt, hv]
    refine ⟨(submit_project s ts round_id).2, by rw [← h1], ?_⟩
    rw [h2]
    exact getA_setA_self _ _ _

/-- Witness for C10: with the voter slot empty, `allocate_votes` panics
with no state change. -/
theorem claim_c10_witness :
    allocate_votes noVoterState 1 [] = (.panic, noVoterState) ∧
    (submit_project noVoterState 50 1).1 = .panic :=
  (claim_c10_voter_unwrap_panic noVoterState 50 1 nvRound [] rfl rfl (by decide)).1 rfl

/-- Claim C7: `close_voting` fails with `RoundNotActive` on a round that
is not open, leaving the state unchanged; on success it stores the round
with `is_active = false`, and a second `close_voting` on the resulting
state fails with `RoundNotActive` without changing it — the open-to-closed
transition happens exactly once, through `close_voting`. -/
theorem claim_c7_close_voting_transition (s : State) (round_id : Nat) (a : Addr) (round : Round)
    (ha : s.admin = some a) (hr : getA s.rounds round_id = some round) :
    (round.is_active = false → close_voting s round_id = (.err .RoundNotActive, s)) ∧
    (∀ s2, close_voting s round_id = (.ok (), s2) →
      getA s2.rounds round_id = some { round with is_active := false } ∧
      close_voting s2 round_id = (.err .RoundNotActive, s2)) := by
  constructor
  · intro hact
    simp [close_voting, ha, hr, hact]
  · intro s2 hok
    simp only [close_voting, ha, hr] at hok
    by_cases hact : round.is_active = false
    · rw [if_pos hact] at hok
      simp at hok
    · rw [if_neg hact] at hok
      split at hok
      · simp at hok
      · split at hok
        · simp at hok
        · simp only [Prod.mk.injEq, true_and] at hok
          subst hok
          have hr2 : getA
              ({ s with rounds := setA s.rounds round_id { round with is_active := false } } :
                State).rounds round_id = some { round with is_active := false } :=
            getA_setA_self _ _ _
          constructor
          · exact hr2
          · simp [close_voting, ha, hr2]

/-- Witness for C7: closing the example round succeeds, stores it
inactive, and a second close fails with `RoundNotActive` unchanged. -/
theorem claim_c7_witness :
    close_voting (close_voting exampleState 1).2 1 =
      (.err .RoundNotActive, (close_voting exampleState 1).2) :=
  ((claim_c7_close_voting_transition exampleState 1 0 exRound rfl rfl).2
    (close_voting exampleState 1).2 (by decide)).2

/-- Claim C9: `allocate_votes` checks neither round existence nor round
activity: with a registered voter, a within-limit vote sum and all
submission ids present, the call succeeds for every `round_id` whatsoever
(no `RoundNotFound` / `RoundNotActive`), and it still adds to submission
vote totals. -/
theorem claim_c9_no_round_check (s : State) (round_id : Nat)
    (allocations : List (Nat × Nat)) (v : Addr)
    (hv : s.voter = some v) (hsum : voteSum allocations ≤ VOTE_CREDITS)
    (hall : ∀ p ∈ allocations, (getA s.submissions p.1).isSome = true) :
    ∃ s2, allocate_votes s round_id allocations = (.ok (), s2) ∧
      ∀ sid sub, getA s.submissions sid = some sub →
        getA s2.submissions sid =
          some { sub with total_votes := sub.total_votes + votesFor allocations sid } := by
  have hnlt : ¬ VOTE_CREDITS < voteSum allocations := Nat.not_lt.mpr hsum
  have heq : allocate_votes s round_id allocations =
      applyVotes
        { s with voter_allocations := setA s.voter_allocations (round_id, v) allocations }
        allocations := by
    simp [allocate_votes, hv, hnlt]
  have hok : (applyVotes
      { s with voter_allocations := setA s.voter_allocations (round_id, v) allocations }
      allocations).1 = .ok () :=
    applyVotes_ok_of_present _ _ fun p hp => hall p hp
  refine ⟨(applyVotes
      { s with voter_allocations := setA s.voter_allocations (round_id, v) allocations }
      allocations).2, ?_, ?_⟩
  · rw [heq, ← hok]
  · intro sid sub hsub
    exact applyVotes_getA_ok _ _ _ _ hsub hok

/-- Witness for C9: voting succeeds against a state holding no round
record at all, and the submission's total still increases. -/
theorem claim_c9_witness :
    ∃ s2, allocate_votes noRoundState 99 [(1, 4)] = (.ok (), s2) ∧
      getA s2.submissions 1 =
        some { id := 1, round_id := 1, submitter := 1, total_votes := 4 } := by
  obtain ⟨s2, hok, hupd⟩ :=
    claim_c9_no_round_check noRoundState 99 [(1, 4)] 1 rfl (by decide) (by decide)
  exact ⟨s2, hok, by rw [hupd 1 _ rfl]; decide⟩

/-- Claim C8: a second successful `allocate_votes` for the same round and
voter overwrites the stored allocation record with the new vector, but the
submission totals keep the first call's contribution as well: after both
calls a submission's `total_votes` has grown by the votes of both vectors. -/
theorem claim_c8_revote_double_count (s s1 s2 : State) (round_id : Nat)
    (a1 a2 : List (Nat × Nat)) (v : Addr) (sid : Nat) (sub : Submission)
    (hv : s.voter = some v)
    (h1 : allocate_votes s round_id a1 = (.ok (), s1))
    (h2 : allocate_votes s1 round_id a2 = (.ok (), s2))
    (hsub : getA s.submissions sid = some sub) :
    getA s2.voter_allocations (round_id, v) = some a2 ∧
    getA s2.submissions sid =
      some { sub with total_votes :=
               sub.total_votes + votesFor a1 sid + votesFor a2 sid } := by
  have hlim1 : ¬ VOTE_CREDITS < voteSum a1 := by
    intro hlt
    simp [allocate_votes, hv, hlt] at h1
  rw [show allocate_votes s round_id a1 =
      applyVotes { s with voter_allocations := setA s.voter_allocations (round_id, v) a1 } a1
    by simp [allocate_votes, hv, hlim1]] at h1
  have hok1 : (applyVotes
      { s with voter_allocations := setA s.voter_allocations (round_id, v) a1 } a1).1 =
      .ok () := by rw [h1]
  have hs1 : s1 = (applyVotes
      { s with voter_allocations := setA s.voter_allocations (round_id, v) a1 } a1).2 :=
    (congrArg Prod.snd h1).symm
  have hv1 : s1.voter = some v := by
    rw [hs1, (applyVotes_proj a1 _).2.1]
    exact hv
  have hsub1 : getA s1.submissions sid =
      some { sub with total_votes := sub.total_votes + votesFor a1 sid } := by
    rw [hs1]
    exact applyVotes_getA_ok _ _ _ _ hsub hok1
  have hlim2 : ¬ VOTE_CREDITS < voteSum a2 := by
    intro hlt
    simp [allocate_votes, hv1, hlt] at h2
  rw [show allocate_votes s1 round_id a2 =
      applyVotes { s1 with voter_allocations := setA s1.voter_allocations (round_id, v) a2 } a2
    by simp [allocate_votes, hv1, hlim2]] at h2
  have hok2 : (applyVotes
      { s1 with voter_allocations := setA s1.voter_allocations (round_id, v) a2 } a2).1 =
      .ok () := by rw [h2]
  have hs2 : s2 = (applyVotes
      { s1 with voter_allocations := setA s1.voter_allocations (round_id, v) a2 } a2).2 :=
    (congrArg Prod.snd h2).symm
  constructor
  · rw [hs2, (applyVotes_proj a2 _).2.2.2.1]
    exact getA_setA_self _ _ _
  · rw [hs2]
    have := applyVotes_getA_ok a2
      { s1 with voter_allocations := setA s1.voter_allocations (round_id, v) a2 } sid
      { sub with total_votes := sub.total_votes + votesFor a1 sid } hsub1 hok2
    rw [this]

/-- Witness for C8 at the example state: voting 5 then 7 on submission 1
leaves the stored vector at the second call's value while the submission
total becomes 30 + 5 + 7 = 42. -/
theorem claim_c8_witness :
    getA (allocate_votes (allocate_votes exampleState 1 [(1, 5)]).2 1
        [(1, 7)]).2.voter_allocations (1, 1) = some [(1, 7)] ∧
    getA (allocate_votes (allocate_votes exampleState 1 [(1, 5)]).2 1
        [(1, 7)]).2.submissions 1 =
      some { id := 1, round_id := 1, submitter := 1, total_votes := 42 } := by
  have h := claim_c8_revote_double_count exampleState
    (allocate_votes exampleState 1 [(1, 5)]).2
    (allocate_votes (allocate_votes exampleState 1 [(1, 5)]).2 1 [(1, 7)]).2
    1 [(1, 5)] [(1, 7)] 1 1 exSub1 rfl (by decide) (by decide) rfl
  exact ⟨h.1, by rw [h.2]; decide⟩

/-- Claim C1: on a successful `close_voting`, each submission's stored
funding allocation is `floor(total_votes * funding_amount / t)` with `t`
the sum of `total_votes` over the round's submissions (truncating `Nat`
division), and 0 for every submission when `t = 0`. -/
theorem claim_c1_allocation_formula (s : State) (round_id : Nat) (a : Addr) (round : Round)
    (sid t : Nat) (sub : Submission)
    (ha : s.admin = some a) (hr : getA s.rounds round_id = some round)
    (hact : round.is_active = true)
    (ht : totalVotesOf s.submissions round.submissions = some t)
    (hsid : sid ∈ round.submissions)
    (hsub : getA s.submissions sid = some sub) :
    ∃ s2 m, close_voting s round_id = (.ok (), s2) ∧
      getA s2.fund_allocations round_id = some m ∧
      getA m sid =
        some (if 0 < t then sub.total_votes * round.funding_amount / t else 0) := by
  have hact2 : ¬ round.is_active = false := by simp [hact]
  obtain ⟨m, hm⟩ := allocLoop_some s.submissions round.funding_amount t round.submissions []
    (totalVotesOf_isSome _ _ _ ht)
  have hrun : close_voting s round_id =
      (.ok (),
        { s with
          rounds := setA s.rounds round_id { round with is_active := false },
          fund_allocations := setA s.fund_allocations round_id m }) := by
    simp [close_voting, ha, hr, hact2, ht, hm]
  refine ⟨_, m, hrun, getA_setA_self _ _ _, ?_⟩
  have := allocLoop_getA_mem s.submissions round.funding_amount t round.submissions [] m
    sid sub hm hsid hsub
  rw [this]
  rfl

/-- Witness for C1 at the spec example: funding 1000, votes 30 and 70,
submission 1 is allocated 300. -/
theorem claim_c1_witness :
    ∃ s2 m, close_voting exampleState 1 = (.ok (), s2) ∧
      getA s2.fund_allocations 1 = some m ∧
      getA m 1 = some 300 := by
  obtain ⟨s2, m, h1, h2, h3⟩ := claim_c1_allocation_formula exampleState 1 0 exRound 1 100
    exSub1 rfl rfl rfl rfl (by decide) rfl
  exact ⟨s2, m, h1, h2, by rw [h3]; decide⟩

/-- Claim C2: on a successful `close_voting` over a duplicate-free
submission list, the stored allocations sum to at most `funding_amount`;
when the vote total `t` is positive, the sum equals `funding_amount`
exactly when every submission's share divides with no truncation loss;
and any subsequent successful `disburse_funds` transfers exactly the sum
of the stored allocations (hence never more than `funding_amount`). -/
theorem claim_c2_allocation_sum_bound (s : State) (round_id : Nat) (a : Addr) (round : Round)
    (t : Nat)
    (ha : s.admin = some a) (hr : getA s.rounds round_id = some round)
    (hact : round.is_active = true) (hnd : round.submissions.Nodup)
    (ht : totalVotesOf s.submissions round.submissions = some t) :
    ∃ s2 m, close_voting s round_id = (.ok (), s2) ∧
      getA s2.fund_allocations round_id = some m ∧
      sumValues m ≤ round.funding_amount ∧
      (0 < t → (sumValues m = round.funding_amount ↔
        ∀ sid ∈ round.submissions,
          t ∣ submissionVotes s.submissions sid * round.funding_amount)) ∧
      (∀ bal s3 trs, disburse_funds s2 round_id bal = (.ok (), s3, trs) →
        transfersSum trs = sumValues m) := by
  have hact2 : ¬ round.is_active = false := by simp [hact]
  obtain ⟨m, hm⟩ := allocLoop_some s.submissions round.funding_amount t round.submissions []
    (totalVotesOf_isSome _ _ _ ht)
  have hrun : close_voting s round_id =
      (.ok (),
        { s with
          rounds := setA s.rounds round_id { round with is_active := false },
          fund_allocations := setA s.fund_allocations round_id m }) := by
    simp [close_voting, ha, hr, hact2, ht, hm]
  have hmap : m = round.submissions.map fun sid =>
      (sid, allocAmount (submissionVotes s.submissions sid) round.funding_amount t) := by
    have := allocLoop_eq_append s.submissions round.funding_amount t round.submissions [] m
      hnd (by simp) hm
    simpa using this
  have hts : (round.submissions.map (submissionVotes s.submissions)).sum = t :=
    (totalVotesOf_eq_sum _ _ _ ht).symm
  have hsum : sumValues m =
      ((round.submissions.map (submissionVotes s.submissions)).map
        (fun v => allocAmount v round.funding_amount t)).sum := by
    rw [hmap]
    simp only [sumValues, List.map_map]
    rfl
  refine ⟨_, m, hrun, getA_setA_self _ _ _, ?_, ?_, ?_⟩
  · rw [hsum]
    exact allocSum_le _ _ _ hts
  · intro h0
    rw [hsum]
    rw [allocSum_eq_iff _ _ _ hts h0]
    constructor
    · intro h sid hsid
      exact h _ (List.mem_map_of_mem _ hsid)
    · intro h x hx
      rcases List.mem_map.mp hx with ⟨sid, hsid, hvx⟩
      subst hvx
      exact h sid hsid
  · intro bal s3 trs hdis
    simp only [disburse_funds, ha, getA_setA_self] at hdis
    by_cases hfd : round.funds_disbursed = true
    · simp [hfd] at hdis
    · simp only [Bool.not_eq_true] at hfd
      simp only [hfd, Bool.false_eq_true, if_false] at hdis
      rcases lt_or_ge bal (round.funding_amount : Int) with hbal | hbal
      · rw [if_pos hbal] at hdis
        simp at hdis
      · rw [if_neg (not_lt.mpr hbal)] at hdis
        rcases htr : transferLoop { s with admin := some a, rounds := setA s.rounds round_id { round with is_active := false, funds_disbursed := false }, fund_allocations := setA s.fund_allocations round_id m } a [] m with ⟨res, trs2⟩
        rw [htr] at hdis
        cases res with
        | ok u =>
          simp only [Prod.mk.injEq] at hdis
          obtain ⟨-, -, htrs⟩ := hdis
          subst htrs
          have := transferLoop_sum m _ a [] trs2 (by rw [htr])
          simpa [transfersSum] using this
        | err e => simp at hdis
        | panic => simp at hdis

/-- Witness for C2 at the spec example: the stored allocations for the
example round sum to at most the funding amount 1000. -/
theorem claim_c2_witness :
    ∃ s2 m, close_voting exampleState 1 = (.ok (), s2) ∧
      getA s2.fund_allocations 1 = some m ∧
      sumValues m ≤ 1000 := by
  obtain ⟨s2, m, h1, h2, h3, -, -⟩ := claim_c2_allocation_sum_bound exampleState 1 0 exRound
    100 rfl rfl rfl (by decide) rfl
  exact ⟨s2, m, h1, h2, h3⟩

end RPGF
